import Mathlib

/-!
Verification of the traefik-provider core (src/internal/config.go and
src/internal/client.go) against its natural-language specification.

The Go data model (a subset of github.com/traefik/genconf/dynamic restricted
to the fields this program reads and writes) is embedded shallowly: Go maps
become association lists with insert-overwrite semantics, Go string
operations become operations on `String` (reasoned about through `.data`),
and the network is abstracted by explicit oracles (an `Except` value for the
already-performed HTTP fetch, a `String → Bool` probe outcome function for
the startup liveness checks).
-/

namespace TraefikProvider

/-- `strings.HasSuffix s suffix` from Go. -/
def goHasSuffix (s suffix : String) : Bool :=
  suffix.data.isSuffixOf s.data

/-- `strings.Split s "@"` followed by taking element 0: everything before the
first `@` (the whole string when no `@` occurs). -/
def goSplitAtFirst (s : String) : String :=
  String.mk (s.data.takeWhile (fun c => c ≠ '@'))

/-- TLS trust policy of one endpoint (config.go, type TLS). -/
structure TLS where
  ignoreInsecure : Bool
deriving DecidableEq

/-- One remote proxy instance (config.go, type Endpoint). -/
structure Endpoint where
  host : String
  api : Int
  web : Int
  tls : Option TLS
deriving DecidableEq

/-- config.go, `defaultPath`. -/
def defaultPath : String := "/"

/-- client.go, `defaultRawPath`. -/
def defaultRawPath : String := "/api/rawdata"

/-- config.go, `Endpoint.buildURI`: `url.URL{Host: host:port, Scheme: http,
Path: path}` with the scheme overridden to https when a TLS policy is set,
rendered as a string. -/
def Endpoint.buildURI (e : Endpoint) (port : Int) (path : String) : String :=
  (match e.tls with
   | some _ => "https"
   | none => "http") ++ "://" ++ e.host ++ ":" ++ toString port ++ path

/-- dynamic.RouterTLSConfig (only the field this program writes). -/
structure RouterTLSConfig where
  certResolver : String
deriving DecidableEq

/-- dynamic.Router (only the fields this program reads/writes). -/
structure Router where
  service : String
  rule : String
  middlewares : List String
  tls : Option RouterTLSConfig
deriving DecidableEq

/-- dynamic.Server (only the URL field). -/
structure Server where
  url : String
deriving DecidableEq

/-- dynamic.ServersLoadBalancer (only the server list). -/
structure ServersLoadBalancer where
  servers : List Server
deriving DecidableEq

/-- dynamic.Service (only the load balancer variant this program touches). -/
structure Service where
  loadBalancer : ServersLoadBalancer
deriving DecidableEq

/-- dynamic.RedirectScheme. -/
structure RedirectScheme where
  scheme : String
  permanent : Bool
deriving DecidableEq

/-- dynamic.Middleware (only the redirect-scheme variant this program
produces). -/
structure Middleware where
  redirectScheme : Option RedirectScheme
deriving DecidableEq

/-- A Go `map[string]V`, embedded as an association list whose keys are
pairwise distinct; `mapInsert` overwrites in place. Iteration order of a Go
map is not specified; the embedding fixes the list order. -/
abbrev GoMap (α : Type) := List (String × α)

/-- Go map lookup `m[k]` (the `v, ok := m[k]` form). -/
def mapLookup {α : Type} (m : GoMap α) (k : String) : Option α :=
  match m with
  | [] => none
  | (k', v) :: rest => if k' = k then some v else mapLookup rest k

/-- Go map assignment `m[k] = v`: overwrite in place, append when absent. -/
def mapInsert {α : Type} (m : GoMap α) (k : String) (v : α) : GoMap α :=
  match m with
  | [] => [(k, v)]
  | (k', v') :: rest =>
    if k' = k then (k, v) :: rest else (k', v') :: mapInsert rest k v

/-- In-place update of the value stored under `k` (models mutating a value
reached through `m[k]`, e.g. `m[k].Middlewares = append(...)`). -/
def mapModify {α : Type} (m : GoMap α) (k : String) (f : α → α) : GoMap α :=
  match m with
  | [] => []
  | (k', v) :: rest =>
    if k' = k then (k, f v) :: rest else (k', v) :: mapModify rest k f

/-- dynamic.HTTPConfiguration: the three maps this program touches. -/
structure HTTPConfiguration where
  routers : GoMap Router
  services : GoMap Service
  middlewares : GoMap Middleware
deriving DecidableEq

/-- dynamic.Configuration restricted to its HTTP section; `http = none`
models the nil pointer. -/
structure Configuration where
  http : Option HTTPConfiguration
deriving DecidableEq

/-- The freshly-initialized HTTP section (client.go lines 74-80). -/
def emptyHTTP : HTTPConfiguration :=
  { routers := [], services := [], middlewares := [] }

/-- client.go, type Client: the endpoint it is bound to, the optional global
TLS certificate resolver name, and whether its transport was built with
certificate verification disabled (config.go lines 87-92). -/
structure Client where
  endpoint : Endpoint
  resolver : Option String
  insecureSkipVerify : Bool
deriving DecidableEq

/-- The globally-distinguishable name derived for a router key
(client.go lines 66-67). -/
def dName (c : Client) (key : String) : String :=
  goSplitAtFirst key ++ "-" ++ c.endpoint.host

/-- The body of the `for key, item := range res.HTTP.Routers` loop of
`prepareResponse` (client.go lines 61-114), acting on the accumulated
output (`none` models `output.HTTP == nil`). -/
def prepStep (c : Client) (doc : HTTPConfiguration)
    (acc : Option HTTPConfiguration) (kv : String × Router) :
    Option HTTPConfiguration :=
  let key := kv.1
  let item := kv.2
  if goHasSuffix key "@internal" then acc
  else
    let name := dName c key
    match mapLookup doc.services key with
    | none => acc
    | some service =>
      let out := acc.getD emptyHTTP
      let out := { out with
        routers := mapInsert out.routers name
          { service := name, rule := item.rule, middlewares := [],
            tls := none } }
      let servers := service.loadBalancer.servers.map (fun _ =>
        Server.mk (c.endpoint.buildURI c.endpoint.web defaultPath))
      let out := { out with
        services := mapInsert out.services name
          { loadBalancer := { servers := servers } } }
      let out := match c.resolver with
        | none => out
        | some r =>
          let out := { out with
            routers := mapModify out.routers name (fun rt =>
              { rt with middlewares := rt.middlewares ++ ["http2https"] }) }
          let out := { out with
            routers := mapInsert out.routers (name ++ "-secure")
              { service := name, rule := item.rule, middlewares := [],
                tls := some { certResolver := r } } }
          { out with
            middlewares := mapInsert out.middlewares "http2https"
              { redirectScheme := some { scheme := "https",
                                         permanent := true } } }
      some out

/-- client.go, `Client.prepareResponse`. -/
def prepareResponse (c : Client) (res : Configuration) : Configuration :=
  let doc := res.http.getD emptyHTTP
  { http := doc.routers.foldl (prepStep c doc) none }

/-- The distinct error kinds `FetchRaw` can return: an error propagated from
`httpCall` (request preparation, transport, decode, or body-close failure)
versus the typed empty-response error wrapping `ErrEmptyResponse`, which
carries the endpoint host (client.go line 132). -/
inductive FetchErr where
  | httpErr : String → FetchErr
  | emptyResponse : String → FetchErr
deriving DecidableEq

/-- client.go, `Client.FetchRaw`. The already-performed `httpCall` is passed
in as an `Except` value. The outer `Option` models termination: `none` is
the run-time panic — when the decoded HTTP section is nil (reachable via a
JSON `null` body, which decodes without error), line 124 dereferences
`res.HTTP` and crashes before reaching any return. In the `some` outcome,
the first component is the value sent on the `out` channel (nil on every
error path) and the second is the returned error. -/
def FetchRaw (c : Client) (fetched : Except String Configuration) :
    Option (Option Configuration × Option FetchErr) :=
  match fetched with
  | Except.error e => some (none, some (FetchErr.httpErr e))
  | Except.ok res =>
    match res.http with
    | none => none
    | some doc =>
      if 0 < doc.routers.length ∧ 0 < doc.services.length then
        some (some (prepareResponse c res), none)
      else
        some (none, some (FetchErr.emptyResponse c.endpoint.host))

/-- config.go, type Config (scheduling durations as integer nanoseconds). -/
structure Config where
  connTimeout : Int
  pollInterval : Int
  endpoints : List Endpoint
  tlsResolver : Option String

/-- The client built for one endpoint by `PrepareClients` (config.go lines
87-92 and 113-117): verification is skipped only on explicit opt-in. -/
def mkClient (resolver : Option String) (e : Endpoint) : Client :=
  { endpoint := e, resolver := resolver,
    insecureSkipVerify := match e.tls with
      | some t => t.ignoreInsecure
      | none => false }

/-- The per-endpoint loop of `PrepareClients` (config.go lines 86-118), with
the two-port probe loop unrolled; `call uri` tells whether the GET against
`uri` succeeded and its body closed cleanly. -/
def prepareClientsFrom (resolver : Option String) (call : String → Bool) :
    List Endpoint → Except String (List Client)
  | [] => Except.ok []
  | e :: rest =>
    if call (e.buildURI e.api defaultPath) = false then
      Except.error ("could not call request(" ++
        e.buildURI e.api defaultPath ++ ")")
    else if call (e.buildURI e.web defaultPath) = false then
      Except.error ("could not call request(" ++
        e.buildURI e.web defaultPath ++ ")")
    else
      match prepareClientsFrom resolver call rest with
      | Except.ok out => Except.ok (mkClient resolver e :: out)
      | Except.error err => Except.error err

/-- config.go, `Config.PrepareClients`, over the probe-outcome oracle. -/
def PrepareClients (cfg : Config) (call : String → Bool) :
    Except String (List Client) :=
  prepareClientsFrom cfg.tlsResolver call cfg.endpoints

/-- A router key survives transformation: it does not carry the reserved
internal suffix and its original key has a matching service. -/
def survives (doc : HTTPConfiguration) (key : String) : Bool :=
  !goHasSuffix key "@internal" && (mapLookup doc.services key).isSome

/-- The plain router `prepareResponse` emits for a surviving key. -/
def expRouter (c : Client) (key : String) (item : Router) : Router :=
  { service := dName c key, rule := item.rule,
    middlewares := match c.resolver with
      | some _ => ["http2https"]
      | none => [],
    tls := none }

/-- The TLS-variant router emitted when a resolver is configured. -/
def expSecure (c : Client) (key : String) (item : Router) (r : String) :
    Router :=
  { service := dName c key, rule := item.rule, middlewares := [],
    tls := some { certResolver := r } }

/-- The rewritten service emitted for a surviving key: one server per source
server, every URL pointing at the endpoint's data-plane port. -/
def expService (c : Client) (svc : Service) : Service :=
  { loadBalancer := { servers := svc.loadBalancer.servers.map (fun _ =>
      Server.mk (c.endpoint.buildURI c.endpoint.web defaultPath)) } }

/-- The single shared redirect middleware (client.go lines 110-112). -/
def redirectMw : Middleware :=
  { redirectScheme := some { scheme := "https", permanent := true } }

/-- The router keys of a fragment. -/
def routerKeys (cfg : Configuration) : List String :=
  (cfg.http.getD emptyHTTP).routers.map Prod.fst

/-- The service keys of a fragment. -/
def serviceKeys (cfg : Configuration) : List String :=
  (cfg.http.getD emptyHTTP).services.map Prod.fst

/-- Router and service keys of a fragment together (the keys relevant to
collision-freedom of the external merge). -/
def rsKeys (cfg : Configuration) : List String :=
  routerKeys cfg ++ serviceKeys cfg

/-- The HTTP section of the fragment a client produces for a document. -/
def fragHTTP (c : Client) (doc : HTTPConfiguration) : HTTPConfiguration :=
  (prepareResponse c { http := some doc }).http.getD emptyHTTP

/-- The two key decorations a client can append to a derived base name:
`-host` (plain routers and services) and `-host-secure` (TLS routers). -/
def dTags (host : String) : List String :=
  ["-" ++ host, "-" ++ host ++ "-secure"]

/-- The derived names of the surviving router keys of `doc` are free of
collisions: distinct surviving keys derive distinct names, and no derived
name coincides with another surviving key's derived secure name. The raw
renaming scheme (`Split(key, "@")[0] + "-" + host`) does not guarantee this
for arbitrary keys and hosts. -/
def GoodNames (c : Client) (doc : HTTPConfiguration) : Prop :=
  ∀ kv ∈ doc.routers, ∀ kv' ∈ doc.routers,
    survives doc kv.1 = true → survives doc kv'.1 = true →
    (kv.1 ≠ kv'.1 → dName c kv.1 ≠ dName c kv'.1) ∧
    dName c kv.1 ≠ dName c kv'.1 ++ "-secure"

/-! Concrete sample data used to evaluate the claims on explicit inputs. -/

/-- A source router carrying only a rule (the fields `prepareResponse`
reads). -/
def mkRouter (rule : String) : Router :=
  { service := "web", rule := rule, middlewares := [], tls := none }

/-- A source service with one backend server per given URL. -/
def svcOf (urls : List String) : Service :=
  { loadBalancer := { servers := urls.map Server.mk } }

/-- The endpoint of the spec's end-to-end scenario. -/
def epA : Endpoint :=
  { host := "a.example", api := 8080, web := 8081, tls := none }

/-- A second endpoint, with an insecure-opt-in TLS policy. -/
def epB : Endpoint :=
  { host := "b.example", api := 9080, web := 9081,
    tls := some { ignoreInsecure := true } }

/-- Client for `epA` without a TLS certificate resolver. -/
def cliA : Client :=
  { endpoint := epA, resolver := none, insecureSkipVerify := false }

/-- Client for `epA` with resolver `myresolver`. -/
def cliAR : Client :=
  { endpoint := epA, resolver := some "myresolver",
    insecureSkipVerify := false }

/-- Client for `epB` without a resolver. -/
def cliB : Client :=
  { endpoint := epB, resolver := none, insecureSkipVerify := true }

/-- The spec's end-to-end document: one router/service pair. -/
def docA : HTTPConfiguration :=
  { routers := [("web@docker", mkRouter "HostA")],
    services := [("web@docker",
      svcOf ["http://10.0.0.1:80", "http://10.0.0.2:80"])],
    middlewares := [] }

/-- Two distinct router keys sharing the base name `web`, with different
rules and services of different cardinality: the renaming scheme maps both
to the same derived name. -/
def docAlias : HTTPConfiguration :=
  { routers := [("web@a", mkRouter "RA"), ("web@b", mkRouter "RB")],
    services := [("web@a", svcOf ["http://10.0.0.1:80"]),
                 ("web@b", svcOf ["http://10.0.0.1:80",
                                  "http://10.0.0.2:80"])],
    middlewares := [] }

/-- A document that decodes with zero routers but a nonempty service map. -/
def docNoRouters : HTTPConfiguration :=
  { routers := [],
    services := [("web@docker", svcOf ["http://10.0.0.1:80"])],
    middlewares := [] }

/-- Nonempty routers and services, but no router key has a matching
service: every router is a dangling reference. -/
def docOrphan : HTTPConfiguration :=
  { routers := [("web@docker", mkRouter "HostA")],
    services := [("other@file", svcOf ["http://10.0.0.1:80"])],
    middlewares := [] }

/-- A two-endpoint configuration for the startup gate. -/
def cfgW : Config :=
  { connTimeout := 5000000000, pollInterval := 10000000000,
    endpoints := [epA, epB], tlsResolver := none }

/-! ### String lemmas -/

lemma data_append (a b : String) : (a ++ b).data = a.data ++ b.data := rfl

lemma goHasSuffix_iff (s t : String) :
    goHasSuffix s t = true ↔ t.data <:+ s.data := by
  simp [goHasSuffix, List.isSuffixOf_iff_suffix]

lemma string_append_cancel {a b s : String} (h : a ++ s = b ++ s) :
    a = b := by
  apply String.ext
  have h2 : a.data ++ s.data = b.data ++ s.data := by
    have := congrArg String.data h
    simpa [data_append] using this
  exact List.append_cancel_right h2

lemma append_secure_ne (s : String) : s ++ "-secure" ≠ s := by
  intro h
  have h2 : (s ++ "-secure").data.length = s.data.length :=
    congrArg (fun t : String => t.data.length) h
  have h3 : ("-secure" : String).data.length = 7 := rfl
  simp [data_append, List.length_append, h3] at h2

lemma secure_append_ne (s : String) : s ≠ s ++ "-secure" :=
  fun h => append_secure_ne s h.symm

/-! ### Go map lemmas -/

lemma mapLookup_insert {α : Type} (m : GoMap α) (k : String) (v : α)
    (k' : String) :
    mapLookup (mapInsert m k v) k' =
      if k = k' then some v else mapLookup m k' := by
  induction m with
  | nil => simp [mapInsert, mapLookup]
  | cons kv rest ih =>
    obtain ⟨a, b⟩ := kv
    by_cases hak : a = k
    · subst hak
      by_cases hk' : a = k'
      · subst hk'
        simp [mapInsert, mapLookup]
      · simp [mapInsert, mapLookup, hk']
    · by_cases hak' : a = k'
      · subst hak'
        simp [mapInsert, mapLookup, hak, ih]
        rw [if_neg (fun h => hak h.symm)]
      · simp [mapInsert, mapLookup, hak, hak', ih]

lemma mapModify_insert {α : Type} (m : GoMap α) (k : String) (v : α)
    (f : α → α) :
    mapModify (mapInsert m k v) k f = mapInsert m k (f v) := by
  induction m with
  | nil => simp [mapInsert, mapModify]
  | cons kv rest ih =>
    obtain ⟨a, b⟩ := kv
    by_cases hak : a = k
    · subst hak
      simp [mapInsert, mapModify]
    · simp [mapInsert, mapModify, hak, ih]

lemma mem_mapInsert {α : Type} {m : GoMap α} {k : String} {v : α}
    {kv' : String × α} (h : kv' ∈ mapInsert m k v) :
    kv' = (k, v) ∨ kv' ∈ m := by
  induction m with
  | nil => simpa [mapInsert] using h
  | cons kv rest ih =>
    obtain ⟨a, b⟩ := kv
    by_cases hak : a = k
    · subst hak
      rcases by simpa [mapInsert] using h with h1 | h1
      · exact Or.inl h1
      · exact Or.inr (List.mem_cons_of_mem _ h1)
    · rcases by simpa [mapInsert, hak] using h with h1 | h1
      · exact Or.inr (by simp [h1])
      · rcases ih h1 with h2 | h2
        · exact Or.inl h2
        · exact Or.inr (List.mem_cons_of_mem _ h2)

lemma keys_mapInsert {α : Type} {m : GoMap α} {k : String} {v : α}
    {k' : String} (h : k' ∈ (mapInsert m k v).map Prod.fst) :
    k' = k ∨ k' ∈ m.map Prod.fst := by
  rcases List.mem_map.mp h with ⟨kv', hkv', hfst⟩
  rcases mem_mapInsert hkv' with h1 | h1
  · left
    rw [← hfst, h1]
  · right
    exact hfst ▸ List.mem_map_of_mem Prod.fst h1

lemma mapLookup_insert_isSome {α : Type} {m : GoMap α} {k' : String}
    (k : String) (v : α) (h : (mapLookup m k').isSome = true) :
    (mapLookup (mapInsert m k v) k').isSome = true := by
  rw [mapLookup_insert]
  by_cases hk : k = k' <;> simp [hk, h]

/-! ### Fold lemmas -/

lemma foldl_rec {α β : Type _} (l : List α) (f : β → α → β) (b : β)
    (P : β → Prop) (hb : P b)
    (hstep : ∀ acc x, x ∈ l → P acc → P (f acc x)) : P (l.foldl f b) := by
  induction l generalizing b with
  | nil => exact hb
  | cons x xs ih =>
    exact ih (f b x) (hstep b x (by simp) hb)
      (fun acc y hy hacc => hstep acc y (by simp [hy]) hacc)

lemma foldl_filter_skipped {α β : Type _} (l : List α) (f : β → α → β)
    (p : α → Bool) (hskip : ∀ acc x, x ∈ l → p x = false → f acc x = acc) :
    ∀ b, (l.filter p).foldl f b = l.foldl f b := by
  induction l with
  | nil => intro b; rfl
  | cons x xs ih =>
    intro b
    have hsk' : ∀ acc y, y ∈ xs → p y = false → f acc y = acc :=
      fun acc y hy => hskip acc y (by simp [hy])
    by_cases hpx : p x = true
    · simp only [List.filter_cons, hpx, List.foldl_cons]
      exact ih hsk' (f b x)
    · have hpx' : p x = false := by simpa using hpx
      simp only [List.filter_cons, hpx', List.foldl_cons,
        hskip b x (by simp) hpx']
      exact ih hsk' b

/-! ### prepStep characterization -/

lemma prepStep_internal (c : Client) (doc : HTTPConfiguration)
    (acc : Option HTTPConfiguration) (key : String) (item : Router)
    (h : goHasSuffix key "@internal" = true) :
    prepStep c doc acc (key, item) = acc := by
  simp [prepStep, h]

lemma prepStep_orphan (c : Client) (doc : HTTPConfiguration)
    (acc : Option HTTPConfiguration) (key : String) (item : Router)
    (h1 : goHasSuffix key "@internal" = false)
    (h2 : mapLookup doc.services key = none) :
    prepStep c doc acc (key, item) = acc := by
  simp [prepStep, h1, h2]

lemma prepStep_skip (c : Client) (doc : HTTPConfiguration)
    (acc : Option HTTPConfiguration) (key : String) (item : Router)
    (h : survives doc key = false) :
    prepStep c doc acc (key, item) = acc := by
  by_cases h1 : goHasSuffix key "@internal" = true
  · exact prepStep_internal c doc acc key item h1
  · have h1' : goHasSuffix key "@internal" = false := by simpa using h1
    have h2 : mapLookup doc.services key = none := by
      rcases Option.eq_none_or_eq_some (mapLookup doc.services key) with
        hn | ⟨v, hv⟩
      · exact hn
      · exfalso
        simp [survives, h1', hv] at h
    exact prepStep_orphan c doc acc key item h1' h2

lemma prepStep_ok_none (c : Client) (doc : HTTPConfiguration)
    (acc : Option HTTPConfiguration) (key : String) (item : Router)
    (svc : Service) (h1 : goHasSuffix key "@internal" = false)
    (h2 : mapLookup doc.services key = some svc)
    (hres : c.resolver = none) :
    prepStep c doc acc (key, item) = some
      { routers := mapInsert (acc.getD emptyHTTP).routers (dName c key)
          (expRouter c key item),
        services := mapInsert (acc.getD emptyHTTP).services (dName c key)
          (expService c svc),
        middlewares := (acc.getD emptyHTTP).middlewares } := by
  simp [prepStep, h1, h2, hres, expRouter, expService]

lemma prepStep_ok_some (c : Client) (doc : HTTPConfiguration)
    (acc : Option HTTPConfiguration) (key : String) (item : Router)
    (svc : Service) (r : String) (h1 : goHasSuffix key "@internal" = false)
    (h2 : mapLookup doc.services key = some svc)
    (hres : c.resolver = some r) :
    prepStep c doc acc (key, item) = some
      { routers := mapInsert
          (mapInsert (acc.getD emptyHTTP).routers (dName c key)
            (expRouter c key item))
          (dName c key ++ "-secure") (expSecure c key item r),
        services := mapInsert (acc.getD emptyHTTP).services (dName c key)
          (expService c svc),
        middlewares := mapInsert (acc.getD emptyHTTP).middlewares
          "http2https" redirectMw } := by
  simp only [prepStep, h1, Bool.false_eq_true, if_false, h2, hres]
  rw [mapModify_insert]
  simp [expRouter, expSecure, expService, redirectMw, hres]

/-! ### Every key the transformer writes carries a host tag -/

lemma dName_tag (c : Client) (key : String) :
    ("-" ++ c.endpoint.host).data <:+ (dName c key).data := by
  have : (dName c key).data =
      (goSplitAtFirst key).data ++ ("-" ++ c.endpoint.host).data := by
    simp [dName, data_append, List.append_assoc]
  rw [this]
  exact List.suffix_append _ _

lemma dName_secure_tag (c : Client) (key : String) :
    ("-" ++ c.endpoint.host ++ "-secure").data <:+
      (dName c key ++ "-secure").data := by
  have : (dName c key ++ "-secure").data =
      (goSplitAtFirst key).data ++
        ("-" ++ c.endpoint.host ++ "-secure").data := by
    simp [dName, data_append, List.append_assoc]
  rw [this]
  exact List.suffix_append _ _

/-- Fold invariant: every router or service key written so far ends in one
of the endpoint's two tags. -/
lemma keys_tagged_inv (c : Client) (doc : HTTPConfiguration)
    (l : List (String × Router)) :
    ∀ k ∈ ((l.foldl (prepStep c doc) none).getD emptyHTTP).routers.map
        Prod.fst ++
      ((l.foldl (prepStep c doc) none).getD emptyHTTP).services.map
        Prod.fst,
      ∃ t ∈ dTags c.endpoint.host, t.data <:+ k.data := by
  refine foldl_rec l (prepStep c doc) none (fun acc =>
    ∀ k ∈ (acc.getD emptyHTTP).routers.map Prod.fst ++
        (acc.getD emptyHTTP).services.map Prod.fst,
      ∃ t ∈ dTags c.endpoint.host, t.data <:+ k.data) ?_ ?_
  · intro k hk
    simp [emptyHTTP] at hk
  · intro acc x _ hacc
    obtain ⟨key, item⟩ := x
    by_cases hsv : survives doc key = true
    · have h1 : goHasSuffix key "@internal" = false := by
        cases hg : goHasSuffix key "@internal" with
        | false => rfl
        | true => simp [survives, hg] at hsv
      obtain ⟨svc, h2⟩ : ∃ svc, mapLookup doc.services key = some svc := by
        rcases Option.eq_none_or_eq_some (mapLookup doc.services key) with
          hn | ⟨v, hv⟩
        · simp [survives, h1, hn] at hsv
        · exact ⟨v, hv⟩
      intro k hk
      rcases hres : c.resolver with _ | r
      · rw [prepStep_ok_none c doc acc key item svc h1 h2 hres] at hk
        simp only [Option.getD_some, List.mem_append] at hk
        rcases hk with hk | hk
        · rcases keys_mapInsert hk with hk1 | hk1
          · exact ⟨"-" ++ c.endpoint.host, by simp [dTags],
              hk1 ▸ dName_tag c key⟩
          · exact hacc k (List.mem_append.mpr (Or.inl hk1))
        · rcases keys_mapInsert hk with hk1 | hk1
          · exact ⟨"-" ++ c.endpoint.host, by simp [dTags],
              hk1 ▸ dName_tag c key⟩
          · exact hacc k (List.mem_append.mpr (Or.inr hk1))
      · rw [prepStep_ok_some c doc acc key item svc r h1 h2 hres] at hk
        simp only [Option.getD_some, List.mem_append] at hk
        rcases hk with hk | hk
        · rcases keys_mapInsert hk with hk1 | hk1
          · exact ⟨"-" ++ c.endpoint.host ++ "-secure", by simp [dTags],
              hk1 ▸ dName_secure_tag c key⟩
          · rcases keys_mapInsert hk1 with hk2 | hk2
            · exact ⟨"-" ++ c.endpoint.host, by simp [dTags],
                hk2 ▸ dName_tag c key⟩
            · exact hacc k (List.mem_append.mpr (Or.inl hk2))
        · rcases keys_mapInsert hk with hk1 | hk1
          · exact ⟨"-" ++ c.endpoint.host, by simp [dTags],
              hk1 ▸ dName_tag c key⟩
          · exact hacc k (List.mem_append.mpr (Or.inr hk1))
    · have hsv' : survives doc key = false := by simpa using hsv
      rw [prepStep_skip c doc acc key item hsv']
      exact hacc

/-- Every router/service key of a produced fragment ends in one of the
endpoint's two tags. -/
lemma rsKeys_tagged (c : Client) (res : Configuration) :
    ∀ k ∈ rsKeys (prepareResponse c res),
      ∃ t ∈ dTags c.endpoint.host, t.data <:+ k.data := by
  intro k hk
  exact keys_tagged_inv c (res.http.getD emptyHTTP)
    (res.http.getD emptyHTTP).routers k
    (by simpa [rsKeys, routerKeys, serviceKeys, prepareResponse] using hk)

/-! ### Surviving keys: extraction lemmas -/

lemma survives_not_internal {doc : HTTPConfiguration} {key : String}
    (h : survives doc key = true) : goHasSuffix key "@internal" = false := by
  cases hg : goHasSuffix key "@internal" with
  | false => rfl
  | true => simp [survives, hg] at h

lemma survives_service {doc : HTTPConfiguration} {key : String}
    (h : survives doc key = true) :
    ∃ svc, mapLookup doc.services key = some svc := by
  have h1 := survives_not_internal h
  have h2 : (mapLookup doc.services key).isSome = true := by
    simpa [survives, h1] using h
  exact Option.isSome_iff_exists.mp h2

/-! ### The master lookup lemma: what the fold leaves under each derived
name, for documents whose derived names do not collide. -/

lemma prep_master (c : Client) (doc : HTTPConfiguration)
    (hgood : GoodNames c doc) :
    ∀ l : List (String × Router), (∀ kv ∈ l, kv ∈ doc.routers) →
      (l.map Prod.fst).Nodup →
      ∀ kv ∈ l, survives doc kv.1 = true →
      ∀ svc, mapLookup doc.services kv.1 = some svc →
        mapLookup ((l.foldl (prepStep c doc) none).getD emptyHTTP).routers
            (dName c kv.1) = some (expRouter c kv.1 kv.2) ∧
        mapLookup ((l.foldl (prepStep c doc) none).getD emptyHTTP).services
            (dName c kv.1) = some (expService c svc) ∧
        (∀ r, c.resolver = some r →
          mapLookup
              ((l.foldl (prepStep c doc) none).getD emptyHTTP).routers
              (dName c kv.1 ++ "-secure") =
            some (expSecure c kv.1 kv.2 r)) := by
  intro l
  induction l using List.reverseRecOn with
  | nil =>
    intro _ _ kv hkv
    simp at hkv
  | append_singleton l x ih =>
    intro hsub hnd kv hkv hs svc hsvc
    obtain ⟨xk, xi⟩ := x
    have hfold : (l ++ [(xk, xi)]).foldl (prepStep c doc) none =
        prepStep c doc (l.foldl (prepStep c doc) none) (xk, xi) := by
      simp [List.foldl_append]
    have hsub' : ∀ kv' ∈ l, kv' ∈ doc.routers :=
      fun kv' hkv' => hsub kv' (by simp [hkv'])
    have hx_doc : (xk, xi) ∈ doc.routers := hsub _ (by simp)
    have hnd2 : (l.map Prod.fst ++ [xk]).Nodup := by simpa using hnd
    rw [List.nodup_append] at hnd2
    have hnd1 : (l.map Prod.fst).Nodup := hnd2.1
    have hxk_notin : xk ∉ l.map Prod.fst :=
      fun hmem => hnd2.2.2 hmem (by simp)
    rw [hfold]
    rcases List.mem_append.mp hkv with hkl | hkx
    · have IH := ih hsub' hnd1 kv hkl hs svc hsvc
      by_cases hsx : survives doc xk = true
      · have h1x := survives_not_internal hsx
        obtain ⟨svcx, h2x⟩ := survives_service hsx
        have hxk_ne : xk ≠ kv.1 :=
          fun h => hxk_notin (h ▸ List.mem_map_of_mem Prod.fst hkl)
        have hgx := hgood (xk, xi) hx_doc kv (hsub' kv hkl) hsx hs
        have hgk := hgood kv (hsub' kv hkl) (xk, xi) hx_doc hs hsx
        have hne1 : dName c xk ≠ dName c kv.1 := hgx.1 hxk_ne
        have hne2 : dName c xk ≠ dName c kv.1 ++ "-secure" := hgx.2
        have hne3 : dName c kv.1 ≠ dName c xk ++ "-secure" := hgk.2
        have hne4 : dName c xk ++ "-secure" ≠ dName c kv.1 ++ "-secure" :=
          fun h => hne1 (string_append_cancel h)
        rcases hres : c.resolver with _ | r
        · rw [prepStep_ok_none c doc _ xk xi svcx h1x h2x hres]
          simp only [Option.getD_some]
          refine ⟨?_, ?_, ?_⟩
          · rw [mapLookup_insert, if_neg hne1]
            exact IH.1
          · rw [mapLookup_insert, if_neg hne1]
            exact IH.2.1
          · intro r hr
            exact Option.noConfusion hr
        · rw [prepStep_ok_some c doc _ xk xi svcx r h1x h2x hres]
          simp only [Option.getD_some]
          refine ⟨?_, ?_, ?_⟩
          · rw [mapLookup_insert, if_neg (fun h => hne3 h.symm),
              mapLookup_insert, if_neg hne1]
            exact IH.1
          · rw [mapLookup_insert, if_neg hne1]
            exact IH.2.1
          · intro r' hr'
            rw [mapLookup_insert, if_neg hne4, mapLookup_insert,
              if_neg hne2]
            exact IH.2.2 r' (hres.trans hr')
      · have hsx' : survives doc xk = false := by simpa using hsx
        rw [prepStep_skip c doc _ xk xi hsx']
        exact IH
    · have hkvx : kv = (xk, xi) := by simpa using hkx
      subst hkvx
      have h1x := survives_not_internal hs
      rcases hres : c.resolver with _ | r
      · rw [prepStep_ok_none c doc _ xk xi svc h1x hsvc hres]
        simp only [Option.getD_some]
        refine ⟨?_, ?_, ?_⟩
        · rw [mapLookup_insert, if_pos rfl]
        · rw [mapLookup_insert, if_pos rfl]
        · intro r hr
          exact Option.noConfusion hr
      · rw [prepStep_ok_some c doc _ xk xi svc r h1x hsvc hres]
        simp only [Option.getD_some]
        refine ⟨?_, ?_, ?_⟩
        · rw [mapLookup_insert, if_neg (append_secure_ne _),
            mapLookup_insert, if_pos rfl]
        · rw [mapLookup_insert, if_pos rfl]
        · intro r' hr'
          injection hr' with hrr
          subst hrr
          rw [mapLookup_insert, if_pos rfl]

lemma fragHTTP_eq (c : Client) (doc : HTTPConfiguration) :
    fragHTTP c doc = (doc.routers.foldl (prepStep c doc) none).getD
      emptyHTTP := rfl

lemma prepStep_services_only (c : Client) (d1 d2 : HTTPConfiguration)
    (h : d1.services = d2.services) : prepStep c d1 = prepStep c d2 := by
  funext acc kv
  simp [prepStep, h]

/-! ### Claim C8 -/

/-- C8: `buildURI` is a total function of the endpoint, port, and path whose
scheme is `https` exactly when the endpoint has a TLS trust policy and
`http` otherwise, and whose authority is `host:port`. -/
theorem c8_buildURI_scheme_authority (e : Endpoint) (port : Int)
    (path : String) :
    ∃ scheme, e.buildURI port path =
        scheme ++ "://" ++ e.host ++ ":" ++ toString port ++ path ∧
      (scheme = "https" ↔ e.tls.isSome = true) ∧
      (scheme = "http" ↔ e.tls = none) := by
  rcases e with ⟨h, a, w, tls⟩
  cases tls with
  | none =>
    refine ⟨"http", rfl, ?_, ?_⟩
    · simp
    · simp
  | some t =>
    refine ⟨"https", rfl, ?_, ?_⟩
    · simp
    · simp

/-! ### Claim C3 -/

/-- C3 (code bug at one input): a response body of JSON `null` decodes
without error but leaves the HTTP section nil; `FetchRaw` then dereferences
the nil pointer (client.go line 124, `len(res.HTTP.Routers)`) and panics —
the crash outcome `none` — instead of returning the typed empty-response
error the claim and the spec's error taxonomy prescribe for successfully
decoded responses with zero routers. A present but empty section does take
the graceful path: nil is sent on the channel and the typed empty-response
error scoped to the endpoint host is returned, a constructor distinct from
every error that wraps an `httpCall` (decode/transport) failure. -/
theorem c3_nil_http_panic :
    FetchRaw cliA (Except.ok { http := none }) = none ∧
    FetchRaw cliA (Except.ok { http := some docNoRouters }) =
      some (none, some (FetchErr.emptyResponse "a.example")) ∧
    ∀ s, FetchErr.emptyResponse "a.example" ≠ FetchErr.httpErr s := by
  refine ⟨rfl, by decide, ?_⟩
  intro s h
  exact FetchErr.noConfusion h

/-! ### Claim C4 -/

/-- C4: routers whose key carries the reserved `@internal` suffix contribute
nothing to the fragment: deleting them from the input document leaves the
output unchanged (so none of their data appears under any original or
renamed key). -/
theorem c4_internal_routers_no_contribution (c : Client)
    (doc : HTTPConfiguration) :
    prepareResponse c { http := some { doc with
        routers := doc.routers.filter
          (fun kv => !goHasSuffix kv.1 "@internal") } } =
      prepareResponse c { http := some doc } := by
  have hps : prepStep c { doc with
      routers := doc.routers.filter
        (fun kv => !goHasSuffix kv.1 "@internal") } = prepStep c doc :=
    prepStep_services_only c _ _ rfl
  have hskip : ∀ (acc : Option HTTPConfiguration) (x : String × Router),
      x ∈ doc.routers → (!goHasSuffix x.1 "@internal") = false →
      prepStep c doc acc x = acc := by
    intro acc x _ hx
    obtain ⟨k, i⟩ := x
    exact prepStep_internal c doc acc k i (by simpa using hx)
  show Configuration.mk _ = Configuration.mk _
  simp only [prepareResponse, Option.getD_some]
  rw [hps, foldl_filter_skipped _ _ _ hskip]

/-! ### Claim C5 -/

lemma prepStep_no_service (c : Client) (doc : HTTPConfiguration)
    (acc : Option HTTPConfiguration) (key : String) (item : Router)
    (h2 : mapLookup doc.services key = none) :
    prepStep c doc acc (key, item) = acc := by
  by_cases h1 : goHasSuffix key "@internal" = true
  · exact prepStep_internal c doc acc key item h1
  · exact prepStep_orphan c doc acc key item (by simpa using h1) h2

/-- C5: a router key with no matching service contributes nothing and
raises no error — deleting every such key from the input leaves the output
fragment unchanged, in any document; and when every router key is dropped
this way (in a document that passes the nonempty router/service check), the
fragment's HTTP section stays nil and `FetchRaw` succeeds, an outcome
distinct from the empty-response error. -/
theorem c5_orphan_routers_dropped (c : Client) (doc : HTTPConfiguration) :
    prepareResponse c { http := some { doc with
        routers := doc.routers.filter
          (fun kv => (mapLookup doc.services kv.1).isSome) } } =
      prepareResponse c { http := some doc } ∧
    (doc.routers ≠ [] → doc.services ≠ [] →
      (∀ kv ∈ doc.routers, mapLookup doc.services kv.1 = none) →
      prepareResponse c { http := some doc } = { http := none } ∧
      FetchRaw c (Except.ok { http := some doc }) =
        some (some { http := none }, none)) := by
  constructor
  · have hps : prepStep c { doc with
        routers := doc.routers.filter
          (fun kv => (mapLookup doc.services kv.1).isSome) } =
        prepStep c doc := prepStep_services_only c _ _ rfl
    have hskip : ∀ (acc : Option HTTPConfiguration) (x : String × Router),
        x ∈ doc.routers → ((mapLookup doc.services x.1).isSome = false) →
        prepStep c doc acc x = acc := by
      intro acc x _ hx
      obtain ⟨k, i⟩ := x
      cases hlk : mapLookup doc.services k with
      | none => exact prepStep_no_service c doc acc k i hlk
      | some v => simp [hlk] at hx
    show Configuration.mk _ = Configuration.mk _
    simp only [prepareResponse, Option.getD_some]
    rw [hps, foldl_filter_skipped _ _ _ hskip]
  · intro hr hs hdrop
    have hnone : doc.routers.foldl (prepStep c doc) none = none := by
      refine foldl_rec _ _ _ (fun acc => acc = none) rfl ?_
      intro acc x hx hacc
      obtain ⟨k, i⟩ := x
      subst hacc
      exact prepStep_no_service c doc none k i (hdrop (k, i) hx)
    have h1 : prepareResponse c { http := some doc } = { http := none } := by
      show Configuration.mk _ = _
      simp only [prepareResponse, Option.getD_some]
      rw [hnone]
    refine ⟨h1, ?_⟩
    have hcond : 0 < doc.routers.length ∧ 0 < doc.services.length :=
      ⟨List.length_pos.mpr hr, List.length_pos.mpr hs⟩
    simp only [FetchRaw]
    rw [if_pos hcond, h1]

/-- Concrete check of C5: a document whose single router key has no
matching service produces an empty fragment and no error. -/
theorem c5_witness :
    prepareResponse cliA { http := some docOrphan } = { http := none } ∧
    FetchRaw cliA (Except.ok { http := some docOrphan }) =
      some (some { http := none }, none) :=
  (c5_orphan_routers_dropped cliA docOrphan).2 (by decide) (by decide)
    (by decide)

/-! ### Claim C9 -/

lemma prepareClientsFrom_ok (resolver : Option String)
    (call : String → Bool) :
    ∀ es : List Endpoint,
      (∀ e ∈ es, call (e.buildURI e.api defaultPath) = true ∧
        call (e.buildURI e.web defaultPath) = true) →
      prepareClientsFrom resolver call es =
        Except.ok (es.map (mkClient resolver)) := by
  intro es
  induction es with
  | nil => intro _; rfl
  | cons e rest ih =>
    intro h
    have he := h e (by simp)
    have hrest := ih (fun e' he' => h e' (by simp [he']))
    simp [prepareClientsFrom, he.1, he.2, hrest]

lemma prepareClientsFrom_error (resolver : Option String)
    (call : String → Bool) :
    ∀ es : List Endpoint,
      (∃ e ∈ es, call (e.buildURI e.api defaultPath) = false ∨
        call (e.buildURI e.web defaultPath) = false) →
      ∃ msg, prepareClientsFrom resolver call es = Except.error msg := by
  intro es
  induction es with
  | nil =>
    intro h
    simp at h
  | cons e rest ih =>
    intro h
    by_cases ha : call (e.buildURI e.api defaultPath) = false
    · exact ⟨"could not call request(" ++ e.buildURI e.api defaultPath ++
        ")", by simp [prepareClientsFrom, ha]⟩
    · have ha' : call (e.buildURI e.api defaultPath) = true := by
        simpa using ha
      by_cases hw : call (e.buildURI e.web defaultPath) = false
      · exact ⟨"could not call request(" ++ e.buildURI e.web defaultPath ++
          ")", by simp [prepareClientsFrom, ha', hw]⟩
      · have hw' : call (e.buildURI e.web defaultPath) = true := by
          simpa using hw
        have hrest : ∃ e' ∈ rest,
            call (e'.buildURI e'.api defaultPath) = false ∨
            call (e'.buildURI e'.web defaultPath) = false := by
          rcases h with ⟨e', he', hor⟩
          rcases List.mem_cons.mp he' with rfl | hmem
          · rcases hor with hc | hc
            · rw [ha'] at hc
              exact absurd hc (by simp)
            · rw [hw'] at hc
              exact absurd hc (by simp)
          · exact ⟨e', hmem, hor⟩
        obtain ⟨msg, hmsg⟩ := ih hrest
        exact ⟨msg, by simp [prepareClientsFrom, ha', hw', hmsg]⟩

/-- C9: the startup gate is all-or-nothing. When every per-endpoint probe
(control-plane and data-plane port) succeeds, `PrepareClients` returns one
client per configured endpoint, in order, with certificate verification
disabled exactly for endpoints whose trust policy opted into insecure mode;
when any probe fails, it returns an error and no client list at all. -/
theorem c9_prepare_clients_all_or_nothing (cfg : Config)
    (call : String → Bool) :
    ((∀ e ∈ cfg.endpoints, call (e.buildURI e.api defaultPath) = true ∧
        call (e.buildURI e.web defaultPath) = true) →
      PrepareClients cfg call =
        Except.ok (cfg.endpoints.map (mkClient cfg.tlsResolver)) ∧
      ∀ cl ∈ cfg.endpoints.map (mkClient cfg.tlsResolver),
        cl.insecureSkipVerify = true ↔
          ∃ t, cl.endpoint.tls = some t ∧ t.ignoreInsecure = true) ∧
    ((∃ e ∈ cfg.endpoints, call (e.buildURI e.api defaultPath) = false ∨
        call (e.buildURI e.web defaultPath) = false) →
      ∃ msg, PrepareClients cfg call = Except.error msg) := by
  constructor
  · intro h
    refine ⟨prepareClientsFrom_ok cfg.tlsResolver call cfg.endpoints h, ?_⟩
    intro cl hcl
    rcases List.mem_map.mp hcl with ⟨e, _, rfl⟩
    cases htls : e.tls with
    | none => simp [mkClient, htls]
    | some t =>
      cases hins : t.ignoreInsecure with
      | false => simp [mkClient, htls, hins]
      | true => simp [mkClient, htls, hins]
  · intro h
    exact prepareClientsFrom_error cfg.tlsResolver call cfg.endpoints h

/-- Concrete check of C9: with all probes green, both configured endpoints
yield clients (the second with verification disabled); with probes failing,
construction returns an error. -/
theorem c9_witness :
    PrepareClients cfgW (fun _ => true) =
      Except.ok [mkClient none epA, mkClient none epB] ∧
    ∃ msg, PrepareClients cfgW (fun _ => false) = Except.error msg :=
  ⟨((c9_prepare_clients_all_or_nothing cfgW (fun _ => true)).1
      (by intro e _; exact ⟨rfl, rfl⟩)).1,
   (c9_prepare_clients_all_or_nothing cfgW (fun _ => false)).2
      ⟨epA, by simp [cfgW], Or.inl rfl⟩⟩

/-! ### Claim C10 -/

/-- C10: with a resolver configured, every TLS-variant router in the
fragment sits under its service reference plus `-secure`, that service
reference has a service entry in the fragment (the secure router shares the
plain router's single service), and every service key of the fragment is
the plain derived name of some surviving source router (no `-secure`
service entries are created). -/
theorem c10_secure_shares_service (c : Client) (doc : HTTPConfiguration)
    (r : String) (hres : c.resolver = some r) :
    (∀ kv ∈ (fragHTTP c doc).routers, kv.2.tls.isSome = true →
      kv.1 = kv.2.service ++ "-secure" ∧
      (mapLookup (fragHTTP c doc).services kv.2.service).isSome = true) ∧
    (∀ k ∈ (fragHTTP c doc).services.map Prod.fst,
      ∃ kv ∈ doc.routers, survives doc kv.1 = true ∧
        k = dName c kv.1) := by
  rw [fragHTTP_eq]
  refine foldl_rec doc.routers (prepStep c doc) none (fun acc =>
    (∀ kv ∈ (acc.getD emptyHTTP).routers, kv.2.tls.isSome = true →
      kv.1 = kv.2.service ++ "-secure" ∧
      (mapLookup (acc.getD emptyHTTP).services kv.2.service).isSome =
        true) ∧
    (∀ k ∈ (acc.getD emptyHTTP).services.map Prod.fst,
      ∃ kv ∈ doc.routers, survives doc kv.1 = true ∧
        k = dName c kv.1)) ?_ ?_
  · constructor
    · intro kv hkv
      simp [emptyHTTP] at hkv
    · intro k hk
      simp [emptyHTTP] at hk
  · intro acc x hx hacc
    obtain ⟨xk, xi⟩ := x
    by_cases hsx : survives doc xk = true
    · have h1x := survives_not_internal hsx
      obtain ⟨svcx, h2x⟩ := survives_service hsx
      rw [prepStep_ok_some c doc acc xk xi svcx r h1x h2x hres]
      simp only [Option.getD_some]
      constructor
      · intro kv hkv htls
        rcases mem_mapInsert hkv with rfl | hkv1
        · refine ⟨rfl, ?_⟩
          show (mapLookup (mapInsert (acc.getD emptyHTTP).services
            (dName c xk) (expService c svcx)) (dName c xk)).isSome = true
          rw [mapLookup_insert, if_pos rfl]
          rfl
        · rcases mem_mapInsert hkv1 with rfl | hkv2
          · simp [expRouter] at htls
          · have hold := hacc.1 kv hkv2 htls
            exact ⟨hold.1, mapLookup_insert_isSome _ _ hold.2⟩
      · intro k hk
        rcases keys_mapInsert hk with rfl | hk1
        · exact ⟨(xk, xi), hx, hsx, rfl⟩
        · exact hacc.2 k hk1
    · have hsx' : survives doc xk = false := by simpa using hsx
      rw [prepStep_skip c doc acc xk xi hsx']
      exact hacc

/-- Concrete check of C10 on the end-to-end document with resolver
`myresolver`. -/
theorem c10_witness :
    (∀ kv ∈ (fragHTTP cliAR docA).routers, kv.2.tls.isSome = true →
      kv.1 = kv.2.service ++ "-secure" ∧
      (mapLookup (fragHTTP cliAR docA).services kv.2.service).isSome =
        true) ∧
    (∀ k ∈ (fragHTTP cliAR docA).services.map Prod.fst,
      ∃ kv ∈ docA.routers, survives docA kv.1 = true ∧
        k = dName cliAR kv.1) :=
  c10_secure_shares_service cliAR docA "myresolver" rfl

/-! ### Middleware map shape when a resolver is configured -/

lemma mw_after (c : Client) (doc : HTTPConfiguration) (r : String)
    (hres : c.resolver = some r) :
    ∀ l : List (String × Router),
      (((l.foldl (prepStep c doc) none).getD emptyHTTP).middlewares = [] ∨
        ((l.foldl (prepStep c doc) none).getD emptyHTTP).middlewares =
          [("http2https", redirectMw)]) ∧
      (∀ kv ∈ l, survives doc kv.1 = true →
        ((l.foldl (prepStep c doc) none).getD emptyHTTP).middlewares =
          [("http2https", redirectMw)]) := by
  intro l
  induction l using List.reverseRecOn with
  | nil =>
    refine ⟨Or.inl rfl, ?_⟩
    intro kv hkv
    simp at hkv
  | append_singleton l x ih =>
    obtain ⟨xk, xi⟩ := x
    have hfold : (l ++ [(xk, xi)]).foldl (prepStep c doc) none =
        prepStep c doc (l.foldl (prepStep c doc) none) (xk, xi) := by
      simp [List.foldl_append]
    rw [hfold]
    by_cases hsx : survives doc xk = true
    · have h1x := survives_not_internal hsx
      obtain ⟨svcx, h2x⟩ := survives_service hsx
      rw [prepStep_ok_some c doc _ xk xi svcx r h1x h2x hres]
      simp only [Option.getD_some]
      have hmw : mapInsert
          ((l.foldl (prepStep c doc) none).getD emptyHTTP).middlewares
          "http2https" redirectMw = [("http2https", redirectMw)] := by
        rcases ih.1 with h | h <;> rw [h] <;> simp [mapInsert]
      exact ⟨Or.inr hmw, fun kv _ _ => hmw⟩
    · have hsx' : survives doc xk = false := by simpa using hsx
      rw [prepStep_skip c doc _ xk xi hsx']
      refine ⟨ih.1, ?_⟩
      intro kv hkv hskv
      rcases List.mem_append.mp hkv with hkl | hkx
      · exact ih.2 kv hkl hskv
      · have hkvx : kv = (xk, xi) := by simpa using hkx
        have hx1 : survives doc xk = true := by simpa [hkvx] using hskv
        rw [hx1] at hsx'
        exact Bool.noConfusion hsx'

/-! ### Router shape when no resolver is configured -/

lemma nores_plain (c : Client) (doc : HTTPConfiguration)
    (hres : c.resolver = none) :
    (∀ kv ∈ (fragHTTP c doc).routers,
      kv.2.tls = none ∧ kv.2.middlewares = []) ∧
    (fragHTTP c doc).middlewares = [] := by
  rw [fragHTTP_eq]
  refine foldl_rec doc.routers (prepStep c doc) none (fun acc =>
    (∀ kv ∈ (acc.getD emptyHTTP).routers,
      kv.2.tls = none ∧ kv.2.middlewares = []) ∧
    (acc.getD emptyHTTP).middlewares = []) ⟨?_, rfl⟩ ?_
  · intro kv hkv
    simp [emptyHTTP] at hkv
  · intro acc x hx hacc
    obtain ⟨xk, xi⟩ := x
    by_cases hsx : survives doc xk = true
    · have h1x := survives_not_internal hsx
      obtain ⟨svcx, h2x⟩ := survives_service hsx
      rw [prepStep_ok_none c doc acc xk xi svcx h1x h2x hres]
      simp only [Option.getD_some]
      refine ⟨?_, hacc.2⟩
      intro kv hkv
      rcases mem_mapInsert hkv with rfl | h1
      · constructor <;> simp [expRouter, hres]
      · exact hacc.1 kv h1
    · have hsx' : survives doc xk = false := by simpa using hsx
      rw [prepStep_skip c doc acc xk xi hsx']
      exact hacc

/-! ### Claim C1 -/

/-- C1 as stated is false: with a resolver configured, the fragment for the
end-to-end document contains the router key `web-a.example-secure`, which is
not suffixed with the endpoint host `a.example`. -/
theorem c1_counterexample :
    ¬ ∀ k ∈ rsKeys (prepareResponse cliAR { http := some docA }),
        goHasSuffix k cliAR.endpoint.host = true := by
  decide

/-- C1 amended: every router/service key of a fragment ends in one of the
endpoint's two tags, `-host` or `-host-secure`; and fragments of two
endpoints have disjoint router/service key sets whenever no tag of either
endpoint is a suffix of a tag of the other (for distinct hosts this can
fail only for adversarial host pairs such as `x` versus `y-x`, or `x`
versus `x-secure`). -/
theorem c1_keys_tagged_and_disjoint (c c' : Client)
    (res res' : Configuration)
    (hnc : ∀ t ∈ dTags c.endpoint.host, ∀ t' ∈ dTags c'.endpoint.host,
      goHasSuffix t t' = false ∧ goHasSuffix t' t = false) :
    (∀ k ∈ rsKeys (prepareResponse c res),
      ∃ t ∈ dTags c.endpoint.host, goHasSuffix k t = true) ∧
    (∀ k ∈ rsKeys (prepareResponse c res),
      k ∉ rsKeys (prepareResponse c' res')) := by
  constructor
  · intro k hk
    obtain ⟨t, ht, hsuf⟩ := rsKeys_tagged c res k hk
    exact ⟨t, ht, (goHasSuffix_iff k t).mpr hsuf⟩
  · intro k hk hk'
    obtain ⟨t, ht, hsuf⟩ := rsKeys_tagged c res k hk
    obtain ⟨t', ht', hsuf'⟩ := rsKeys_tagged c' res' k hk'
    have hpair := hnc t ht t' ht'
    rcases List.suffix_or_suffix_of_suffix hsuf hsuf' with h | h
    · have : goHasSuffix t' t = true := (goHasSuffix_iff t' t).mpr h
      rw [hpair.2] at this
      exact Bool.noConfusion this
    · have : goHasSuffix t t' = true := (goHasSuffix_iff t t').mpr h
      rw [hpair.1] at this
      exact Bool.noConfusion this

/-- Concrete check of amended C1: hosts `a.example` and `b.example` have
mutually non-suffix tags, so their fragments' keys are tagged and
disjoint. -/
theorem c1_witness :
    (∀ k ∈ rsKeys (prepareResponse cliAR { http := some docA }),
      ∃ t ∈ dTags cliAR.endpoint.host, goHasSuffix k t = true) ∧
    (∀ k ∈ rsKeys (prepareResponse cliAR { http := some docA }),
      k ∉ rsKeys (prepareResponse cliB { http := some docA })) :=
  c1_keys_tagged_and_disjoint cliAR cliB { http := some docA }
    { http := some docA } (by decide)

/-! ### Claim C2 -/

/-- C2 as stated is false: in `docAlias` the keys `web@a` (rule `RA`) and
`web@b` (rule `RB`) both derive the name `web-a.example`; the whole router
map of the fragment holds a single entry there, carrying rule `RB`, so for
the surviving key `web@a` no emitted router carries its rule. -/
theorem c2_counterexample :
    ("web@a", mkRouter "RA") ∈ docAlias.routers ∧
    survives docAlias "web@a" = true ∧
    (fragHTTP cliA docAlias).routers =
      [("web-a.example",
        { service := "web-a.example", rule := "RB", middlewares := [],
          tls := none })] ∧
    ("RB" : String) ≠ "RA" := by
  decide

/-- C2 amended: provided the surviving router keys of the document derive
pairwise-distinct names (and no derived name equals another's derived
secure name), each surviving router key yields exactly one plain router
under `Split(key, "@")[0] + "-" + host`, with the source rule and a
service reference equal to that derived name. -/
theorem c2_unique_renamed_router (c : Client) (doc : HTTPConfiguration)
    (hnd : (doc.routers.map Prod.fst).Nodup) (hgood : GoodNames c doc)
    (key : String) (item : Router) (hmem : (key, item) ∈ doc.routers)
    (hs : survives doc key = true) :
    mapLookup (fragHTTP c doc).routers (dName c key) =
      some (expRouter c key item) := by
  rw [fragHTTP_eq]
  obtain ⟨svc, hsvc⟩ := survives_service hs
  exact (prep_master c doc hgood doc.routers (fun _ h => h) hnd
    (key, item) hmem hs svc hsvc).1

/-- Concrete check of amended C2 on the end-to-end document. -/
theorem c2_witness :
    mapLookup (fragHTTP cliA docA).routers (dName cliA "web@docker") =
      some (expRouter cliA "web@docker" (mkRouter "HostA")) :=
  c2_unique_renamed_router cliA docA (by decide)
    (by unfold GoodNames; decide)
    "web@docker" (mkRouter "HostA") (by decide) (by decide)

/-! ### Claim C6 -/

/-- C6 as stated is false: in `docAlias` with resolver `myresolver`, the
surviving router `web@a` carries rule `RA`, but the only `-secure` router
under its derived secure name carries rule `RB` (the aliasing key `web@b`
overwrote it), so no secure router with the same rule exists for it. -/
theorem c6_counterexample :
    ("web@a", mkRouter "RA") ∈ docAlias.routers ∧
    survives docAlias "web@a" = true ∧
    cliAR.resolver = some "myresolver" ∧
    mapLookup (fragHTTP cliAR docAlias).routers
        (dName cliAR "web@a" ++ "-secure") =
      some { service := "web-a.example", rule := "RB", middlewares := [],
             tls := some { certResolver := "myresolver" } } ∧
    ("RB" : String) ≠ "RA" := by
  decide

/-- C6 amended: for documents whose surviving keys derive collision-free
names, a configured resolver gives every surviving router a plain router
with the shared redirect middleware reference attached plus a `-secure`
router with the same rule and the resolver set, and the fragment holds
exactly one shared redirect middleware definition (`http2https`, permanent
redirect to https) as soon as at least one router survives — and none at
all when no router survives; without a resolver no TLS router, no
middleware reference and no middleware definition is produced. -/
theorem c6_tls_resolver_variants (c : Client) (doc : HTTPConfiguration)
    (hnd : (doc.routers.map Prod.fst).Nodup) (hgood : GoodNames c doc) :
    (∀ r, c.resolver = some r →
      (∀ key item, (key, item) ∈ doc.routers → survives doc key = true →
        mapLookup (fragHTTP c doc).routers (dName c key) =
          some { service := dName c key, rule := item.rule,
                 middlewares := ["http2https"], tls := none } ∧
        mapLookup (fragHTTP c doc).routers (dName c key ++ "-secure") =
          some (expSecure c key item r)) ∧
      ((∃ kv ∈ doc.routers, survives doc kv.1 = true) →
        (fragHTTP c doc).middlewares = [("http2https", redirectMw)]) ∧
      ((∀ kv ∈ doc.routers, survives doc kv.1 = false) →
        (fragHTTP c doc).middlewares = [])) ∧
    (c.resolver = none →
      (∀ kv ∈ (fragHTTP c doc).routers,
        kv.2.tls = none ∧ kv.2.middlewares = []) ∧
      (fragHTTP c doc).middlewares = []) := by
  constructor
  · intro r hres
    refine ⟨?_, ?_, ?_⟩
    · intro key item hmem hs
      obtain ⟨svc, hsvc⟩ := survives_service hs
      have hm := prep_master c doc hgood doc.routers (fun _ h => h) hnd
        (key, item) hmem hs svc hsvc
      have hplain : expRouter c key item =
          { service := dName c key, rule := item.rule,
            middlewares := ["http2https"], tls := none } := by
        simp [expRouter, hres]
      refine ⟨?_, ?_⟩
      · rw [fragHTTP_eq, ← hplain]
        exact hm.1
      · rw [fragHTTP_eq]
        exact hm.2.2 r hres
    · intro hex
      obtain ⟨kv, hkv, hskv⟩ := hex
      rw [fragHTTP_eq]
      exact (mw_after c doc r hres doc.routers).2 kv hkv hskv
    · intro hall
      rw [fragHTTP_eq]
      have hnone : doc.routers.foldl (prepStep c doc) none = none := by
        refine foldl_rec _ _ _ (fun acc => acc = none) rfl ?_
        intro acc x hx hacc
        obtain ⟨xk, xi⟩ := x
        subst hacc
        exact prepStep_skip c doc none xk xi (hall (xk, xi) hx)
      rw [hnone]
      rfl
  · intro hres
    exact nores_plain c doc hres

/-- Concrete check of amended C6: the end-to-end document with resolver
`myresolver` (variants and single middleware) and without one (no TLS
router, no middleware). -/
theorem c6_witness :
    (mapLookup (fragHTTP cliAR docA).routers (dName cliAR "web@docker") =
      some { service := dName cliAR "web@docker", rule := "HostA",
             middlewares := ["http2https"], tls := none } ∧
     mapLookup (fragHTTP cliAR docA).routers
         (dName cliAR "web@docker" ++ "-secure") =
       some (expSecure cliAR "web@docker" (mkRouter "HostA")
         "myresolver")) ∧
    (fragHTTP cliAR docA).middlewares = [("http2https", redirectMw)] ∧
    (fragHTTP cliAR docOrphan).middlewares = [] ∧
    (fragHTTP cliA docA).middlewares = [] := by
  have h1 := (c6_tls_resolver_variants cliAR docA (by decide)
    (by unfold GoodNames; decide)).1 "myresolver" rfl
  have h0 := (c6_tls_resolver_variants cliAR docOrphan (by decide)
    (by unfold GoodNames; decide)).1 "myresolver" rfl
  have h2 := (c6_tls_resolver_variants cliA docA (by decide)
    (by unfold GoodNames; decide)).2 rfl
  exact ⟨h1.1 "web@docker" (mkRouter "HostA") (by decide) (by decide),
    h1.2.1 ⟨("web@docker", mkRouter "HostA"), by decide, by decide⟩,
    h0.2.2 (by decide), h2.2⟩

/-! ### Claim C7 -/

/-- C7 as stated is false: in `docAlias` the surviving key `web@a` has a
source service with one server, but the only service emitted under its
derived name has two servers (it was overwritten by the aliasing key
`web@b`), so cardinality is not preserved for it. -/
theorem c7_counterexample :
    ("web@a", mkRouter "RA") ∈ docAlias.routers ∧
    survives docAlias "web@a" = true ∧
    mapLookup docAlias.services "web@a" =
      some (svcOf ["http://10.0.0.1:80"]) ∧
    (svcOf ["http://10.0.0.1:80"]).loadBalancer.servers.length = 1 ∧
    (fragHTTP cliA docAlias).services =
      [("web-a.example",
        expService cliA (svcOf ["http://10.0.0.1:80",
                                "http://10.0.0.2:80"]))] ∧
    (expService cliA (svcOf ["http://10.0.0.1:80",
        "http://10.0.0.2:80"])).loadBalancer.servers.length = 2 := by
  decide

/-- C7 amended: for documents whose surviving keys derive collision-free
names, the service emitted for each surviving router has exactly as many
load-balancer servers as the source service, and every emitted server URL
is the URI built from the endpoint host, its data-plane web port and the
root path — never an original backend address. -/
theorem c7_server_cardinality_rewrite (c : Client)
    (doc : HTTPConfiguration) (hnd : (doc.routers.map Prod.fst).Nodup)
    (hgood : GoodNames c doc) (key : String) (item : Router)
    (hmem : (key, item) ∈ doc.routers) (hs : survives doc key = true)
    (svc : Service) (hsvc : mapLookup doc.services key = some svc) :
    ∃ osvc, mapLookup (fragHTTP c doc).services (dName c key) =
        some osvc ∧
      osvc.loadBalancer.servers.length =
        svc.loadBalancer.servers.length ∧
      ∀ s ∈ osvc.loadBalancer.servers,
        s.url = c.endpoint.buildURI c.endpoint.web defaultPath := by
  have hm := prep_master c doc hgood doc.routers (fun _ h => h) hnd
    (key, item) hmem hs svc hsvc
  refine ⟨expService c svc, by rw [fragHTTP_eq]; exact hm.2.1, ?_, ?_⟩
  · simp [expService]
  · intro s hsm
    simp only [expService, List.mem_map] at hsm
    obtain ⟨_, _, rfl⟩ := hsm
    rfl

/-- Concrete check of amended C7 on the end-to-end document: two source
servers become two rewritten servers pointing at `http://a.example:8081/`. -/
theorem c7_witness :
    ∃ osvc, mapLookup (fragHTTP cliA docA).services
        (dName cliA "web@docker") = some osvc ∧
      osvc.loadBalancer.servers.length =
        (svcOf ["http://10.0.0.1:80",
          "http://10.0.0.2:80"]).loadBalancer.servers.length ∧
      ∀ s ∈ osvc.loadBalancer.servers,
        s.url = cliA.endpoint.buildURI cliA.endpoint.web defaultPath :=
  c7_server_cardinality_rewrite cliA docA (by decide)
    (by unfold GoodNames; decide)
    "web@docker" (mkRouter "HostA") (by decide) (by decide)
    (svcOf ["http://10.0.0.1:80", "http://10.0.0.2:80"]) (by decide)

end TraefikProvider
